import Mathlib

/-!
Verification of the ROSE-Formats binary codec layer (rose_data.py, utils.py,
zms_import.py) against its natural-language specification.

Modeling conventions (shallow embedding):
* A byte stream is a `List Cell`.  An `i8/i16/i32` byte on disk is one
  `Cell.b` cell; a 4-byte IEEE-754 float payload is modeled as a single
  `Cell.f` cell carrying an exact rational value (IEEE rounding is
  idealized away; the /100 and *100 scalings are exact over `ℚ`).
* Python text decoding ("EUC-KR") is modeled as the identity on raw byte
  sequences: a decoded string is its byte list.
* A fallible read returns `DR α`: `ok value rest`, `err e` (a raised
  Python exception), or `hang` (the Python code loops forever).  A bare
  `try/except` catches any `err` but can never catch `hang`.
* `Err.structError` models `struct.error` on a short read,
  `Err.parseError` models `RoseParseError`, `Err.nameError` models a
  Python `NameError` (unbound local), and `Err.cellMismatch` marks the
  model artifact of a scalar read crossing a float-cell boundary (which
  cannot arise for streams of the shapes the codecs read or write).
-/

namespace Rose

/-- One cell of the modeled byte stream: a raw byte, or a 4-byte float
payload carried as an exact rational. -/
inductive Cell where
  | b (n : Nat)
  | f (q : ℚ)
deriving DecidableEq, Repr

/-- Python exceptions raised by the codec layer. -/
inductive Err where
  | structError
  | parseError
  | nameError
  | cellMismatch
deriving DecidableEq, Repr

/-- Result of running a decoder on a stream: success with the remaining
stream, a raised exception, or non-termination. -/
inductive DR (α : Type) where
  | ok (a : α) (rest : List Cell)
  | err (e : Err)
  | hang
deriving DecidableEq, Repr

/-- Sequencing of decoders: errors and hangs propagate. -/
def pbind {α β : Type} (p : DR α) (g : α → List Cell → DR β) : DR β :=
  match p with
  | .ok a r => g a r
  | .err e => .err e
  | .hang => .hang

@[simp] theorem pbind_ok {α β : Type} (a : α) (r : List Cell)
    (g : α → List Cell → DR β) : pbind (.ok a r) g = g a r := rfl

@[simp] theorem pbind_err {α β : Type} (e : Err) (g : α → List Cell → DR β) :
    pbind (.err e : DR α) g = .err e := rfl

@[simp] theorem pbind_hang {α β : Type} (g : α → List Cell → DR β) :
    pbind (.hang : DR α) g = .hang := rfl

theorem pbind_eq_ok {α β : Type} {p : DR α} {g : α → List Cell → DR β}
    {bv : β} {r : List Cell} (h : pbind p g = .ok bv r) :
    ∃ a m, p = .ok a m ∧ g a m = .ok bv r := by
  cases p with
  | ok a m => exact ⟨a, m, rfl, h⟩
  | err e => simp [pbind] at h
  | hang => simp [pbind] at h

/-- `f.read(n)`: take up to `n` bytes from the stream (short or empty at
end of stream, without error).  `none` only on the float-cell model
artifact. -/
def readAvail : Nat → List Cell → Option (List Nat × List Cell)
  | 0, s => some ([], s)
  | _ + 1, [] => some ([], [])
  | n + 1, Cell.b x :: s =>
      match readAvail n s with
      | some (bs, r) => some (x :: bs, r)
      | none => none
  | _ + 1, Cell.f _ :: _ => none

/-- Little-endian value of a byte list. -/
def leVal : List Nat → Nat
  | [] => 0
  | x :: xs => x + 256 * leVal xs

/-- Little-endian bytes (width `k`) of a value. -/
def leBytes : Nat → Nat → List Nat
  | 0, _ => []
  | k + 1, v => v % 256 :: leBytes k (v / 256)

/-- Two's-complement reading of a `w*8`-bit unsigned value. -/
def signed (w : Nat) (v : Nat) : ℤ :=
  if v < 2 ^ (8 * w - 1) then (v : ℤ) else (v : ℤ) - 2 ^ (8 * w)

/-- `read_i16`: `struct.unpack("<h", f.read(2))`. -/
def read_i16 (s : List Cell) : DR ℤ :=
  match readAvail 2 s with
  | some (bs, r) => if bs.length = 2 then .ok (signed 2 (leVal bs)) r else .err .structError
  | none => .err .cellMismatch

/-- `read_i32`: `struct.unpack("<i", f.read(4))`. -/
def read_i32 (s : List Cell) : DR ℤ :=
  match readAvail 4 s with
  | some (bs, r) => if bs.length = 4 then .ok (signed 4 (leVal bs)) r else .err .structError
  | none => .err .cellMismatch

/-- `read_f32`: consume one float cell. -/
def read_f32 (s : List Cell) : DR ℚ :=
  match s with
  | Cell.f q :: r => .ok q r
  | Cell.b _ :: _ => .err .cellMismatch
  | [] => .err .structError

/-- `read_fstr`: `f.read(size).decode("EUC-KR")` — never raises on a short
stream; text decoding modeled as the identity on bytes. -/
def read_fstr (size : Nat) (s : List Cell) : DR (List Nat) :=
  match readAvail size s with
  | some (bs, r) => .ok bs r
  | none => .err .cellMismatch

/-- `read_str`: loop reading single bytes until a zero byte.  At end of
stream `f.read(1)` returns `b""` forever, so the Python loop never
terminates: that case is `hang`. -/
def read_str : List Cell → DR (List Nat)
  | [] => .hang
  | Cell.f _ :: _ => .err .cellMismatch
  | Cell.b x :: s =>
      if x = 0 then .ok [] s
      else
        match read_str s with
        | .ok bs r => .ok (x :: bs) r
        | .err e => .err e
        | .hang => .hang

/-- `write_i32`: `struct.pack("<i", v)` (callers stay in `int32` range). -/
def write_i32 (v : ℤ) : List Cell :=
  (leBytes 4 (v % (2 ^ 32)).toNat).map Cell.b

/-- `write_f32`. -/
def write_f32 (q : ℚ) : List Cell := [Cell.f q]

/-- `write_fstr`: `struct.pack(f"<{size}s", data)` pads with zero bytes
(or truncates) to exactly `size`. -/
def write_fstr (size : Nat) (bs : List Nat) : List Cell :=
  ((bs.take size) ++ List.replicate (size - bs.length) 0).map Cell.b

/-- `write_str`: the encoded bytes followed by one zero byte. -/
def write_str (bs : List Nat) : List Cell :=
  (bs ++ [0]).map Cell.b

/-- A 2-component float vector (`mathutils.Vector`). -/
structure Vec2 where
  x : ℚ
  y : ℚ
deriving DecidableEq, Repr

/-- A 3-component float vector. -/
structure Vec3 where
  x : ℚ
  y : ℚ
  z : ℚ
deriving DecidableEq, Repr

/-- A 4-component float vector; components named in the order
`read_vector4_f32` reads them. -/
structure Vec4 where
  w : ℚ
  x : ℚ
  y : ℚ
  z : ℚ
deriving DecidableEq, Repr

/-- `mathutils.Quaternion`, components (w, x, y, z). -/
structure Quat where
  w : ℚ
  x : ℚ
  y : ℚ
  z : ℚ
deriving DecidableEq, Repr

/-- `Quaternion()` with no arguments: the identity rotation. -/
def Quat.one : Quat := ⟨1, 0, 0, 0⟩

/-- `Vector.Fill(3)`. -/
def Vec3.zero : Vec3 := ⟨0, 0, 0⟩

/-- `Vector.Fill(4)`. -/
def Vec4.zero : Vec4 := ⟨0, 0, 0, 0⟩

/-- Componentwise division of a vector by a scalar (`Vector / c`). -/
def Vec3.sdiv (v : Vec3) (c : ℚ) : Vec3 := ⟨v.x / c, v.y / c, v.z / c⟩

/-- An RGB `mathutils.Color`. -/
structure Color3 where
  r : ℚ
  g : ℚ
  bl : ℚ
deriving DecidableEq, Repr

/-- `read_vector3_f32`: three float reads into x, y, z. -/
def read_vector3_f32 (s : List Cell) : DR Vec3 :=
  pbind (read_f32 s) fun x r1 =>
  pbind (read_f32 r1) fun y r2 =>
  pbind (read_f32 r2) fun z r3 => .ok ⟨x, y, z⟩ r3

/-- `read_vector2_f32`. -/
def read_vector2_f32 (s : List Cell) : DR Vec2 :=
  pbind (read_f32 s) fun x r1 =>
  pbind (read_f32 r1) fun y r2 => .ok ⟨x, y⟩ r2

/-- `read_vector4_f32` with `is_rotation=False`: reads w, x, y, z in order
and returns the vector. -/
def read_vector4_f32 (s : List Cell) : DR Vec4 :=
  pbind (read_f32 s) fun w r1 =>
  pbind (read_f32 r1) fun x r2 =>
  pbind (read_f32 r2) fun y r3 =>
  pbind (read_f32 r3) fun z r4 => .ok ⟨w, x, y, z⟩ r4

/-- `read_vector4_f32` with `is_rotation=True`: the same four reads,
returned as a quaternion. -/
def read_vector4_quat (s : List Cell) : DR Quat :=
  pbind (read_f32 s) fun w r1 =>
  pbind (read_f32 r1) fun x r2 =>
  pbind (read_f32 r2) fun y r3 =>
  pbind (read_f32 r3) fun z r4 => .ok ⟨w, x, y, z⟩ r4

/-- `read_vector3_i16`: three int16 reads stored into a float vector. -/
def read_vector3_i16 (s : List Cell) : DR Vec3 :=
  pbind (read_i16 s) fun x r1 =>
  pbind (read_i16 r1) fun y r2 =>
  pbind (read_i16 r2) fun z r3 => .ok ⟨(x : ℚ), (y : ℚ), (z : ℚ)⟩ r3

/-- `read_vector4_i16`: four int16 reads stored into a float vector,
components assigned in the order x, y, z, w. -/
def read_vector4_i16 (s : List Cell) : DR Vec4 :=
  pbind (read_i16 s) fun x r1 =>
  pbind (read_i16 r1) fun y r2 =>
  pbind (read_i16 r2) fun z r3 =>
  pbind (read_i16 r3) fun w r4 =>
    .ok { x := (x : ℚ), y := (y : ℚ), z := (z : ℚ), w := (w : ℚ) } r4

/-- `read_color`: four float reads; returns the RGB color and the alpha
scalar separately. -/
def read_color (s : List Cell) : DR (Color3 × ℚ) :=
  pbind (read_f32 s) fun r r1 =>
  pbind (read_f32 r1) fun g r2 =>
  pbind (read_f32 r2) fun bl r3 =>
  pbind (read_f32 r3) fun a r4 => .ok (⟨r, g, bl⟩, a) r4

/-- `write_vector3_f32`: x, y, z. -/
def write_vector3_f32 (v : Vec3) : List Cell :=
  write_f32 v.x ++ write_f32 v.y ++ write_f32 v.z

/-- `write_vector4_f32`: w, x, y, z. -/
def write_vector4_quat (q : Quat) : List Cell :=
  write_f32 q.w ++ write_f32 q.x ++ write_f32 q.y ++ write_f32 q.z

/-- Little-endian int16 cells, used to build test streams (the repository
has no mesh encoder). -/
def w16 (v : ℤ) : List Cell :=
  (leBytes 2 (v % (2 ^ 16)).toNat).map Cell.b

/-- ROSE bone data (`BoneData`): defaults are parent 0, empty name, zero
position and identity rotation. -/
structure BoneData where
  parent : ℤ
  name : List Nat
  position : Vec3
  rotation : Quat
deriving DecidableEq, Repr

/-- `BoneData.load_data`: dummy records carry name before parent, bone
records parent before name; position is divided by 100; rotation is read
only when `format_v_2` is false, otherwise it stays at its identity
default. -/
def BoneData.load_data (is_dummy : Bool) (format_v_2 : Bool)
    (s : List Cell) : DR BoneData :=
  pbind
    (if is_dummy then
      pbind (read_str s) fun nm r1 =>
      pbind (read_i32 r1) fun p r2 => .ok (p, nm) r2
    else
      pbind (read_i32 s) fun p r1 =>
      pbind (read_str r1) fun nm r2 => .ok (p, nm) r2)
    fun pn r =>
  pbind (read_vector3_f32 r) fun rawPos r2 =>
    if format_v_2 then
      .ok ⟨pn.1, pn.2, rawPos.sdiv 100, Quat.one⟩ r2
    else
      pbind (read_vector4_quat r2) fun rot r3 =>
        .ok ⟨pn.1, pn.2, rawPos.sdiv 100, rot⟩ r3

/-- `BoneData.save_data`: mirrors the field order of `load_data`; the
position is written as stored (no scaling), and rotation is written only
when `format_v_2` is false. -/
def BoneData.save_data (bd : BoneData) (is_dummy : Bool)
    (format_v_2 : Bool) : List Cell :=
  (if is_dummy then write_str bd.name ++ write_i32 bd.parent
   else write_i32 bd.parent ++ write_str bd.name)
  ++ write_vector3_f32 bd.position
  ++ (if format_v_2 then [] else write_vector4_quat bd.rotation)

/-- Reading `n` consecutive bone records
(the loops of `_load_bones` / `_load_dummies`). -/
def loadBoneList (is_dummy : Bool) (format_v_2 : Bool) :
    Nat → List Cell → DR (List BoneData)
  | 0, s => .ok [] s
  | n + 1, s =>
      pbind (BoneData.load_data is_dummy format_v_2 s) fun bd r =>
      pbind (loadBoneList is_dummy format_v_2 n r) fun bds r2 =>
        .ok (bd :: bds) r2

/-- ROSE skeleton data. -/
structure SkeletonData where
  format_code : ℤ
  bones : List BoneData
  dummies : List BoneData
deriving DecidableEq, Repr

/-- Byte sequence of the text `ZMD0003`. -/
def zmd3Tok : List Nat := [90, 77, 68, 48, 48, 48, 51]

/-- Byte sequence of the text `ZMD0002`. -/
def zmd2Tok : List Nat := [90, 77, 68, 48, 48, 48, 50]

/-- `SkeletonData._load_format_code`: a 7-byte fixed string mapped to the
numeric format code, `RoseParseError` otherwise. -/
def loadFormatCode (s : List Cell) : DR ℤ :=
  pbind (read_fstr 7 s) fun tok r =>
    if tok = zmd3Tok then .ok 3 r
    else if tok = zmd2Tok then .ok 2 r
    else .err .parseError

/-- `SkeletonData._load_bones`: a bone count then that many records; note
the source calls `load_data(f, False)` so `format_v_2` defaults to
`False` for every bone, whatever the skeleton's format code. -/
def loadBones (s : List Cell) : DR (List BoneData) :=
  pbind (read_i32 s) fun cnt r => loadBoneList false false cnt.toNat r

/-- `SkeletonData._load_dummies`: the dummy count is read under a bare
`try/except`; any exception makes the loader return with no dummies
(after `f.read(4)` consumed whatever trailing bytes remained).  Dummy
records pass `format_v_2 := (format_code == 2)`. -/
def loadDummies (format_code : ℤ) (s : List Cell) : DR (List BoneData) :=
  match read_i32 s with
  | .ok cnt r => loadBoneList true (decide (format_code = 2)) cnt.toNat r
  | .err _ => .ok [] []
  | .hang => .hang

/-- `SkeletonData.load_data`: format code, bones, dummies. -/
def SkeletonData.load_data (s : List Cell) : DR SkeletonData :=
  pbind (loadFormatCode s) fun fc r =>
  pbind (loadBones r) fun bs r2 =>
  pbind (loadDummies fc r2) fun ds r3 => .ok ⟨fc, bs, ds⟩ r3

/-- Strict variant of `SkeletonData.load_data` used only to characterize
streams whose dummy section is actually present: identical to the source
loader except that a failing dummy-count read is not caught.  Whenever it
succeeds, the source loader succeeds with the same result. -/
def SkeletonData.loadStrict (s : List Cell) : DR SkeletonData :=
  pbind (loadFormatCode s) fun fc r =>
  pbind (loadBones r) fun bs r2 =>
  pbind (read_i32 r2) fun cnt r3 =>
  pbind (loadBoneList true (decide (fc = 2)) cnt.toNat r3) fun ds r4 =>
    .ok ⟨fc, bs, ds⟩ r4

/-- ASCII decimal digits of `str(n)` for an integer. -/
def intStr (n : ℤ) : List Nat :=
  if n < 0 then 45 :: (Nat.toDigits 10 (-n).toNat).map Char.toNat
  else (Nat.toDigits 10 n.toNat).map Char.toNat

/-- `SkeletonData._save_format_code`: the text `ZMD000` followed by
`str(format_code)`, packed to 7 bytes. -/
def saveFormatCode (format_code : ℤ) : List Cell :=
  write_fstr 7 ([90, 77, 68, 48, 48, 48] ++ intStr format_code)

/-- `SkeletonData._save_bones`: count then records, each with
`save_data(f, False)` — `format_v_2` again defaults to `False`, so bone
rotations are always written. -/
def saveBones (bones : List BoneData) : List Cell :=
  write_i32 (bones.length : ℤ) ++
    (bones.map fun bd => bd.save_data false false).flatten

/-- `SkeletonData._save_dummies`: count then records with
`format_v_2 := (format_code == 2)`. -/
def saveDummies (format_code : ℤ) (dummies : List BoneData) : List Cell :=
  write_i32 (dummies.length : ℤ) ++
    (dummies.map fun bd => bd.save_data true (decide (format_code = 2))).flatten

/-- `SkeletonData.save_data`. -/
def SkeletonData.save_data (sk : SkeletonData) : List Cell :=
  saveFormatCode sk.format_code ++ saveBones sk.bones ++
    saveDummies sk.format_code sk.dummies

/-- One animation channel (`ChannelData`): track type bitmask, track
identifier, and the per-field keyframe sequences (all initially empty). -/
structure ChannelData where
  identifier : ℤ
  type : ℤ
  position : List Vec3
  rotation : List Quat
  normal : List Vec3
  alpha : List ℚ
  uv_1 : List Vec2
  uv_2 : List Vec2
  uv_3 : List Vec2
  uv_4 : List Vec2
  texture_animation : List ℚ
  scale : List ℚ
deriving DecidableEq, Repr

/-- `ChannelData(tracktype, track_id)`. -/
def ChannelData.init (tracktype track_id : ℤ) : ChannelData :=
  ⟨track_id, tracktype, [], [], [], [], [], [], [], [], [], []⟩

/-- `TrackType.POSITION & self.type != 0` (bit `1 <<< 1`). -/
def ChannelData.positions_enabled (c : ChannelData) : Bool :=
  Int.land 2 c.type != 0

/-- Bit `1 <<< 2`. -/
def ChannelData.rotations_enabled (c : ChannelData) : Bool :=
  Int.land 4 c.type != 0

/-- Bit `1 <<< 3`. -/
def ChannelData.normals_enabled (c : ChannelData) : Bool :=
  Int.land 8 c.type != 0

/-- Bit `1 <<< 4`. -/
def ChannelData.alpha_enabled (c : ChannelData) : Bool :=
  Int.land 16 c.type != 0

/-- Bit `1 <<< 5`. -/
def ChannelData.uv1_enabled (c : ChannelData) : Bool :=
  Int.land 32 c.type != 0

/-- Bit `1 <<< 6`. -/
def ChannelData.uv2_enabled (c : ChannelData) : Bool :=
  Int.land 64 c.type != 0

/-- Bit `1 <<< 7`. -/
def ChannelData.uv3_enabled (c : ChannelData) : Bool :=
  Int.land 128 c.type != 0

/-- Bit `1 <<< 8`. -/
def ChannelData.uv4_enabled (c : ChannelData) : Bool :=
  Int.land 256 c.type != 0

/-- Bit `1 <<< 9`. -/
def ChannelData.textureanim_enabled (c : ChannelData) : Bool :=
  Int.land 512 c.type != 0

/-- Bit `1 <<< 10`. -/
def ChannelData.scale_enabled (c : ChannelData) : Bool :=
  Int.land 1024 c.type != 0

/-- The position/rotation branch of `_load_channel_data`: `if` position,
`elif` rotation — when both bits are set only the position branch runs.
Each position component is divided by 100 as it is read. -/
def stepPosRot (c : ChannelData) (s : List Cell) : DR ChannelData :=
  if c.positions_enabled then
    pbind (read_f32 s) fun x r1 =>
    pbind (read_f32 r1) fun y r2 =>
    pbind (read_f32 r2) fun z r3 =>
      .ok { c with position := c.position ++ [⟨x / 100, y / 100, z / 100⟩] } r3
  else if c.rotations_enabled then
    pbind (read_f32 s) fun w r1 =>
    pbind (read_f32 r1) fun x r2 =>
    pbind (read_f32 r2) fun y r3 =>
    pbind (read_f32 r3) fun z r4 =>
      .ok { c with rotation := c.rotation ++ [⟨w, x, y, z⟩] } r4
  else .ok c s

/-- The normal branch: unscaled. -/
def stepNormal (c : ChannelData) (s : List Cell) : DR ChannelData :=
  if c.normals_enabled then
    pbind (read_f32 s) fun x r1 =>
    pbind (read_f32 r1) fun y r2 =>
    pbind (read_f32 r2) fun z r3 =>
      .ok { c with normal := c.normal ++ [⟨x, y, z⟩] } r3
  else .ok c s

/-- The alpha branch: reads one float, binds the function-local `alpha`
variable and appends it. -/
def stepAlpha (c : ChannelData) (av : Option ℚ) (s : List Cell) :
    DR (ChannelData × Option ℚ) :=
  if c.alpha_enabled then
    pbind (read_f32 s) fun a r =>
      .ok ({ c with alpha := c.alpha ++ [a] }, some a) r
  else .ok (c, av) s

/-- One UV branch: reads two floats and appends through `upd`. -/
def stepUV (enabled : Bool) (upd : ChannelData → Vec2 → ChannelData)
    (c : ChannelData) (s : List Cell) : DR ChannelData :=
  if enabled then
    pbind (read_f32 s) fun x r1 =>
    pbind (read_f32 r1) fun y r2 => .ok (upd c ⟨x, y⟩) r2
  else .ok c s

/-- The texture-animation branch: the source reads one float into
`texture_anim` but appends the stale `alpha` variable
(`self.channels[j].texture_animation.append(alpha)`); if `alpha` was
never bound, Python raises `NameError`. -/
def stepTexture (c : ChannelData) (av : Option ℚ) (s : List Cell) :
    DR ChannelData :=
  if c.textureanim_enabled then
    pbind (read_f32 s) fun _ta r =>
      match av with
      | some a => .ok { c with texture_animation := c.texture_animation ++ [a] } r
      | none => .err .nameError
  else .ok c s

/-- The scale branch: same slip as the texture-animation branch — the
read value is dropped and `alpha` is appended. -/
def stepScale (c : ChannelData) (av : Option ℚ) (s : List Cell) :
    DR ChannelData :=
  if c.scale_enabled then
    pbind (read_f32 s) fun _sc r =>
      match av with
      | some a => .ok { c with scale := c.scale ++ [a] } r
      | none => .err .nameError
  else .ok c s

/-- Decoding one channel's payload for one frame: the inner body of
`_load_channel_data`, threading the `alpha` local through. -/
def loadChannelStep (c : ChannelData) (av : Option ℚ) (s : List Cell) :
    DR (ChannelData × Option ℚ) :=
  pbind (stepPosRot c s) fun c1 r1 =>
  pbind (stepNormal c1 r1) fun c2 r2 =>
  pbind (stepAlpha c2 av r2) fun ca r3 =>
  pbind (stepUV ca.1.uv1_enabled
      (fun cc v => { cc with uv_1 := cc.uv_1 ++ [v] }) ca.1 r3) fun c4 r4 =>
  pbind (stepUV c4.uv2_enabled
      (fun cc v => { cc with uv_2 := cc.uv_2 ++ [v] }) c4 r4) fun c5 r5 =>
  pbind (stepUV c5.uv3_enabled
      (fun cc v => { cc with uv_3 := cc.uv_3 ++ [v] }) c5 r5) fun c6 r6 =>
  pbind (stepUV c6.uv4_enabled
      (fun cc v => { cc with uv_4 := cc.uv_4 ++ [v] }) c6 r6) fun c7 r7 =>
  pbind (stepTexture c7 ca.2 r7) fun c8 r8 =>
  pbind (stepScale c8 ca.2 r8) fun c9 r9 => .ok (c9, ca.2) r9

/-- One frame's pass over all channels in descriptor order. -/
def loadChannelsPass (cs : List ChannelData) (av : Option ℚ)
    (s : List Cell) : DR (List ChannelData × Option ℚ) :=
  match cs with
  | [] => .ok ([], av) s
  | c :: rest =>
      pbind (loadChannelStep c av s) fun ca r =>
      pbind (loadChannelsPass rest ca.2 r) fun csa r2 =>
        .ok (ca.1 :: csa.1, csa.2) r2

/-- `AnimationData._load_channel_data`: frame-major loop over the channel
list, with the `alpha` local carried across frames and channels. -/
def loadChannelData (frames : Nat) (cs : List ChannelData) (av : Option ℚ)
    (s : List Cell) : DR (List ChannelData × Option ℚ) :=
  match frames with
  | 0 => .ok (cs, av) s
  | n + 1 =>
      pbind (loadChannelsPass cs av s) fun csa r =>
        loadChannelData n csa.1 csa.2 r

/-- The channel-descriptor loop of `AnimationData._setup_channels`. -/
def loadChannelDescriptors : Nat → List Cell → DR (List ChannelData)
  | 0, s => .ok [] s
  | n + 1, s =>
      pbind (read_i32 s) fun tracktype r1 =>
      pbind (read_i32 r1) fun track_id r2 =>
      pbind (loadChannelDescriptors n r2) fun cs r3 =>
        .ok (ChannelData.init tracktype track_id :: cs) r3

/-- ROSE animation data. -/
structure AnimationData where
  format_code : List Nat
  fps : ℤ
  frame_count : ℤ
  channels : List ChannelData
deriving DecidableEq, Repr

/-- `AnimationData.load_data`: settings (8-byte token stored verbatim,
fps, frame count), channel descriptors, then the payload stream. -/
def AnimationData.load_data (s : List Cell) : DR AnimationData :=
  pbind (read_fstr 8 s) fun tok r1 =>
  pbind (read_i32 r1) fun fps r2 =>
  pbind (read_i32 r2) fun frame_count r3 =>
  pbind (read_i32 r3) fun channel_count r4 =>
  pbind (loadChannelDescriptors channel_count.toNat r4) fun cs r5 =>
  pbind (loadChannelData frame_count.toNat cs none r5) fun csa r6 =>
    .ok ⟨tok, fps, frame_count, csa.1⟩ r6

/-- The `color` attribute of a mesh vertex: `mathutils.Color()` until the
color pass runs, afterwards the `(Color, alpha)` pair returned by
`read_color` (the source stores the tuple itself). -/
inductive ColorState where
  | initC
  | loaded (c : Color3) (a : ℚ)
deriving DecidableEq, Repr

/-- One mesh vertex (`Vertex.__init__` defaults). -/
structure Vertex where
  position : Vec3
  normal : Vec3
  color : ColorState
  bone_weights : Vec4
  bone_indices : Vec4
  tangent : Vec3
  uv_layers : List (Option Vec2)
deriving DecidableEq, Repr

/-- `Vertex()`: zero vectors, untouched color, four absent UV layers. -/
def Vertex.init : Vertex :=
  ⟨Vec3.zero, Vec3.zero, .initC, Vec4.zero, Vec4.zero, Vec3.zero,
    [none, none, none, none]⟩

/-- `VertexFormat.POSITION & format != 0` (bit `1 <<< 1`). -/
def fmtPosition (fmt : ℤ) : Bool := Int.land 2 fmt != 0

/-- Bit `1 <<< 2`. -/
def fmtNormal (fmt : ℤ) : Bool := Int.land 4 fmt != 0

/-- Bit `1 <<< 3`. -/
def fmtColor (fmt : ℤ) : Bool := Int.land 8 fmt != 0

/-- `bones_enabled`: both the bone-weight bit `1 <<< 4` and the bone-index
bit `1 <<< 5` must be set. -/
def fmtBones (fmt : ℤ) : Bool :=
  (Int.land 16 fmt != 0) && (Int.land 32 fmt != 0)

/-- Bit `1 <<< 6`. -/
def fmtTangent (fmt : ℤ) : Bool := Int.land 64 fmt != 0

/-- Bit `1 <<< 7`. -/
def fmtUV1 (fmt : ℤ) : Bool := Int.land 128 fmt != 0

/-- Bit `1 <<< 8`. -/
def fmtUV2 (fmt : ℤ) : Bool := Int.land 256 fmt != 0

/-- Bit `1 <<< 9`. -/
def fmtUV3 (fmt : ℤ) : Bool := Int.land 512 fmt != 0

/-- Bit `1 <<< 10`. -/
def fmtUV4 (fmt : ℤ) : Bool := Int.land 1024 fmt != 0

/-- One attribute-major pass over the vertex list
(`for i in range(vert_count): self.vertices[i].<attr> = ...`). -/
def mapPass (g : Vertex → List Cell → DR Vertex) :
    List Vertex → List Cell → DR (List Vertex)
  | [], s => .ok [] s
  | v :: vs, s =>
      pbind (g v s) fun v2 r =>
      pbind (mapPass g vs r) fun vs2 r2 => .ok (v2 :: vs2) r2

/-- A pass gated by a format bit: skipped entirely when the bit is off. -/
def gatedPass (enabled : Bool) (g : Vertex → List Cell → DR Vertex)
    (vs : List Vertex) (s : List Cell) : DR (List Vertex) :=
  if enabled then mapPass g vs s else .ok vs s

/-- A run of `n` int16 reads (bone table, materials, strips). -/
def readI16List : Nat → List Cell → DR (List ℤ)
  | 0, s => .ok [] s
  | n + 1, s =>
      pbind (read_i16 s) fun v r =>
      pbind (readI16List n r) fun vs r2 => .ok (v :: vs) r2

/-- A run of `n` `read_vector3_i16` reads (the triangle table). -/
def readVec3I16List : Nat → List Cell → DR (List Vec3)
  | 0, s => .ok [] s
  | n + 1, s =>
      pbind (read_vector3_i16 s) fun v r =>
      pbind (readVec3I16List n r) fun vs r2 => .ok (v :: vs) r2

/-- ROSE mesh data (`MeshImportData`), `pool` defaulting to 0. -/
structure MeshImportData where
  identifier : List Nat
  format : ℤ
  bb_min : Vec3
  bb_max : Vec3
  bones : List ℤ
  vertices : List Vertex
  indices : List Vec3
  materials : List ℤ
  strips : List ℤ
  pool : ℤ
deriving DecidableEq, Repr

/-- Byte sequence of the text `ZMS0007`. -/
def zms7Tok : List Nat := [90, 77, 83, 48, 48, 48, 55]

/-- Byte sequence of the text `ZMS0008`. -/
def zms8Tok : List Nat := [90, 77, 83, 48, 48, 48, 56]

/-- The trailing pool block of `MeshImportData.load`: for version 8 the
int16 read sits under a bare `try/except` (any exception leaves `pool`
at 0 after `f.read(2)` drained the remaining bytes); version 7 skips the
read entirely. -/
def finishPool (version : ℤ) (m : MeshImportData) (s : List Cell) :
    DR MeshImportData :=
  if 8 ≤ version then
    match read_i16 s with
    | .ok p r => .ok { m with pool := p } r
    | .err _ => .ok m []
    | .hang => .hang
  else .ok m s

/-- `MeshImportData.load`: identifier, version check, format bitmask,
bounding box, bone table, vertex allocation, the bit-gated
attribute-major passes in fixed order, triangle/material/strip tables,
and the version-8 pool field. -/
def MeshImportData.load (s : List Cell) : DR MeshImportData :=
  pbind (read_str s) fun ident r0 =>
  pbind
    (if ident = zms7Tok then .ok (7 : ℤ) r0
     else if ident = zms8Tok then .ok (8 : ℤ) r0
     else .err .parseError) fun version r1 =>
  pbind (read_i32 r1) fun fmt r2 =>
  pbind (read_vector3_f32 r2) fun bbmin r3 =>
  pbind (read_vector3_f32 r3) fun bbmax r4 =>
  pbind (read_i16 r4) fun bone_count r5 =>
  pbind (readI16List bone_count.toNat r5) fun bones r6 =>
  pbind (read_i16 r6) fun vert_count r7 =>
  pbind (gatedPass (fmtPosition fmt)
      (fun v t => pbind (read_vector3_f32 t) fun p u =>
        .ok { v with position := p } u)
      (List.replicate vert_count.toNat Vertex.init) r7) fun vs1 r8 =>
  pbind (gatedPass (fmtNormal fmt)
      (fun v t => pbind (read_vector3_f32 t) fun p u =>
        .ok { v with normal := p } u) vs1 r8) fun vs2 r9 =>
  pbind (gatedPass (fmtColor fmt)
      (fun v t => pbind (read_color t) fun p u =>
        .ok { v with color := .loaded p.1 p.2 } u) vs2 r9) fun vs3 r10 =>
  pbind (gatedPass (fmtBones fmt)
      (fun v t => pbind (read_vector4_f32 t) fun bw u =>
        pbind (read_vector4_i16 u) fun bi u2 =>
          .ok { v with bone_weights := bw, bone_indices := bi } u2)
      vs3 r10) fun vs4 r11 =>
  pbind (gatedPass (fmtTangent fmt)
      (fun v t => pbind (read_vector3_f32 t) fun p u =>
        .ok { v with tangent := p } u) vs4 r11) fun vs5 r12 =>
  pbind (gatedPass (fmtUV1 fmt)
      (fun v t => pbind (read_vector2_f32 t) fun p u =>
        .ok { v with uv_layers := v.uv_layers.set 0 (some p) } u)
      vs5 r12) fun vs6 r13 =>
  pbind (gatedPass (fmtUV2 fmt)
      (fun v t => pbind (read_vector2_f32 t) fun p u =>
        .ok { v with uv_layers := v.uv_layers.set 1 (some p) } u)
      vs6 r13) fun vs7 r14 =>
  pbind (gatedPass (fmtUV3 fmt)
      (fun v t => pbind (read_vector2_f32 t) fun p u =>
        .ok { v with uv_layers := v.uv_layers.set 2 (some p) } u)
      vs7 r14) fun vs8 r15 =>
  pbind (gatedPass (fmtUV4 fmt)
      (fun v t => pbind (read_vector2_f32 t) fun p u =>
        .ok { v with uv_layers := v.uv_layers.set 3 (some p) } u)
      vs8 r15) fun vs9 r16 =>
  pbind (read_i16 r16) fun index_count r17 =>
  pbind (readVec3I16List index_count.toNat r17) fun inds r18 =>
  pbind (read_i16 r18) fun material_count r19 =>
  pbind (readI16List material_count.toNat r19) fun mats r20 =>
  pbind (read_i16 r20) fun strip_count r21 =>
  pbind (readI16List strip_count.toNat r21) fun strps r22 =>
    finishPool version
      ⟨ident, fmt, bbmin, bbmax, bones, vs9, inds, mats, strps, 0⟩ r22

/-! ### Lemmas about the primitive codec -/

theorem readAvail_short {bs : List Nat} {n : Nat} (h : bs.length ≤ n) :
    readAvail n (bs.map Cell.b) = some (bs, []) := by
  induction bs generalizing n with
  | nil =>
      cases n with
      | zero => rfl
      | succ k => rfl
  | cons x xs ih =>
      cases n with
      | zero => simp at h
      | succ k =>
          simp only [List.length_cons, Nat.succ_le_succ_iff] at h
          simp [readAvail, ih h]

theorem readAvail_exact {bs : List Nat} {rest : List Cell} {n : Nat}
    (h : bs.length = n) :
    readAvail n (bs.map Cell.b ++ rest) = some (bs, rest) := by
  induction bs generalizing n rest with
  | nil =>
      subst h
      rfl
  | cons x xs ih =>
      subst h
      simp [readAvail, ih rfl]

theorem read_fstr_exact {bs : List Nat} {rest : List Cell} {n : Nat}
    (h : bs.length = n) :
    read_fstr n (bs.map Cell.b ++ rest) = .ok bs rest := by
  simp [read_fstr, readAvail_exact h]

/-- `read_str` undoes `write_str` when the text holds no zero byte. -/
theorem read_str_write (nm : List Nat) (rest : List Cell)
    (h : ∀ x ∈ nm, x ≠ 0) :
    read_str (write_str nm ++ rest) = .ok nm rest := by
  induction nm with
  | nil => simp [write_str, read_str]
  | cons x xs ih =>
      have hx : x ≠ 0 := h x (List.mem_cons_self x xs)
      have hxs : ∀ y ∈ xs, y ≠ 0 := fun y hy => h y (List.mem_cons_of_mem x hy)
      have hsplit : write_str (x :: xs) ++ rest = Cell.b x :: (write_str xs ++ rest) := by
        simp [write_str]
      rw [hsplit, read_str]
      simp [hx, ih hxs]

/-- A `read_str` over a stream with no terminator byte never returns:
the Python loop spins on `f.read(1) == b""`. -/
theorem read_str_no_terminator (bs : List Nat) (h : ∀ x ∈ bs, x ≠ 0) :
    read_str (bs.map Cell.b) = .hang := by
  induction bs with
  | nil => rfl
  | cons x xs ih =>
      have hx : x ≠ 0 := h x (List.mem_cons_self x xs)
      have hxs : ∀ y ∈ xs, y ≠ 0 := fun y hy => h y (List.mem_cons_of_mem x hy)
      simp [read_str, hx, ih hxs]

theorem leVal_leBytes_four (u : Nat) : leVal (leBytes 4 u) = u % 2 ^ 32 := by
  simp only [leBytes, leVal]
  omega

theorem leBytes_four_length (u : Nat) : (leBytes 4 u).length = 4 := rfl

/-- `read_i32` undoes `write_i32` on `int32`-range values. -/
theorem read_i32_write (v : ℤ) (rest : List Cell)
    (h1 : -(2 ^ 31) ≤ v) (h2 : v < 2 ^ 31) :
    read_i32 (write_i32 v ++ rest) = .ok v rest := by
  unfold read_i32 write_i32
  rw [readAvail_exact (leBytes_four_length _)]
  dsimp only
  rw [if_pos (leBytes_four_length _), leVal_leBytes_four]
  unfold signed
  congr 1
  have e2 : (2 : ℤ) ^ 32 = 4294967296 := by norm_num
  rw [e2]
  have h1n : -(2147483648 : ℤ) ≤ v := by omega
  have h2n : v < (2147483648 : ℤ) := by omega
  split
  case isTrue hc => omega
  case isFalse hc => omega

theorem read_f32_cell (q : ℚ) (rest : List Cell) :
    read_f32 (Cell.f q :: rest) = .ok q rest := rfl

theorem read_vector3_f32_write (v : Vec3) (rest : List Cell) :
    read_vector3_f32 (write_vector3_f32 v ++ rest) = .ok v rest := by
  simp [write_vector3_f32, write_f32, read_vector3_f32, read_f32]

theorem read_vector4_quat_write (q : Quat) (rest : List Cell) :
    read_vector4_quat (write_vector4_quat q ++ rest) = .ok q rest := by
  simp [write_vector4_quat, write_f32, read_vector4_quat, read_f32]

/-! ### C10: `read_fstr` on a short stream -/

/-- C10: for every stream holding fewer than `n` bytes, `read_fstr n`
raises no truncation error; it returns the decoding of however many
bytes remain (possibly none), consuming them all. -/
theorem c10_read_fstr_short (n : Nat) (bs : List Nat) (h : bs.length < n) :
    read_fstr n (bs.map Cell.b) = .ok bs [] := by
  simp [read_fstr, readAvail_short (Nat.le_of_lt h)]

/-- Witness for C10 at a stream of 2 bytes read as a 7-byte field (the
skeleton's version token). -/
theorem c10_read_fstr_short_witness :
    ([90, 77] : List Nat).length < 7 ∧
      read_fstr 7 (([90, 77] : List Nat).map Cell.b) = .ok [90, 77] [] :=
  ⟨by decide, c10_read_fstr_short 7 [90, 77] (by decide)⟩

/-! ### C8: `read_str` behavior -/

/-- C8 counterexample: on the empty stream (which ends before any
terminator byte), `read_str` does not fail with a truncation error as
the claim states — it never terminates (`hang`), which in particular is
not the `struct.error`-style truncation failure. -/
theorem c8_counterexample :
    read_str ([] : List Cell) = .hang ∧
      (DR.hang : DR (List Nat)) ≠ .err .structError := by
  constructor
  · rfl
  · decide

/-- C8 amended: `read_str` returns the bytes before a single zero byte
(terminator consumed, decoding modeled as the identity); but on every
stream that ends before a terminator is found it does not raise — the
read loop never terminates. -/
theorem c8_read_str_amended :
    (∀ (nm : List Nat) (rest : List Cell), (∀ x ∈ nm, x ≠ 0) →
        read_str (write_str nm ++ rest) = .ok nm rest) ∧
    (∀ bs : List Nat, (∀ x ∈ bs, x ≠ 0) →
        read_str (bs.map Cell.b) = .hang) := by
  exact ⟨read_str_write, read_str_no_terminator⟩

/-- Witness for C8 at a 1-byte name and at a 1-byte unterminated
stream. -/
theorem c8_read_str_amended_witness :
    read_str (write_str [65] ++ [Cell.b 7]) = .ok [65] [Cell.b 7] ∧
      read_str (([66] : List Nat).map Cell.b) = .hang :=
  ⟨c8_read_str_amended.1 [65] [Cell.b 7] (by decide),
    c8_read_str_amended.2 [66] (by decide)⟩

/-! ### C7: texture-animation and scale branches -/

/-- C7: one channel with ALPHA, TEXTUREANIM and SCALE bits
(16 + 512 + 1024 = 1552), one frame, payload floats 1, 2, 3.  All three
floats are consumed (the remaining stream is empty), but the values
appended to `texture_animation` and `scale` are the stale `alpha` local
(1), not the values read (2 and 3): the claim holds of the spec but the
code appends `alpha`. -/
theorem c7_texture_scale_append_alpha :
    loadChannelData 1 [ChannelData.init 1552 0] none
        [Cell.f 1, Cell.f 2, Cell.f 3] =
      .ok ([⟨0, 1552, [], [], [], [1], [], [], [], [], [1], [1]⟩], some 1)
        [] := by
  decide

/-! ### C4: leniency of the dummy-count read -/

/-- A version-3 skeleton stream with zero bones followed by two trailing
bytes: the dummy-count read has only 2 of 4 bytes available. -/
def skelTrailing : List Cell :=
  (zmd3Tok.map Cell.b) ++ write_i32 0 ++ [Cell.b 9, Cell.b 9]

/-- C4 counterexample: a skeleton stream with 2 stray bytes after the
last bone record decodes successfully with an empty dummy list — the
claim says a dummy-count read failure with 1–3 bytes remaining is
fatal, but the bare `except:` catches the `struct.error` too. -/
theorem c4_counterexample :
    SkeletonData.load_data skelTrailing = .ok ⟨3, [], []⟩ [] := by
  decide

/-- C4 amended: after the last bone record, ANY failure of the
dummy-count read — exact exhaustion or 1–3 remaining bytes alike — is
lenient: the loader returns an empty dummy list and the decode
succeeds.  (A read of fewer than 4 remaining bytes raises
`struct.error`, and `_load_dummies` catches every exception.) -/
theorem c4_dummy_leniency_amended :
    (∀ (format_code : ℤ) (s : List Cell) (e : Err),
        read_i32 s = .err e → loadDummies format_code s = .ok [] []) ∧
    (∀ bs : List Nat, bs.length < 4 →
        read_i32 (bs.map Cell.b) = .err .structError) ∧
    (∀ format_code : ℤ, loadDummies format_code [] = .ok [] []) := by
  refine ⟨?_, ?_, ?_⟩
  · intro fc s e h
    simp [loadDummies, h]
  · intro bs h
    unfold read_i32
    rw [readAvail_short (Nat.le_of_lt h)]
    dsimp only
    rw [if_neg (by omega)]
  · intro fc
    rfl

/-- Witness for C4 at the 2-stray-byte stream. -/
theorem c4_dummy_leniency_amended_witness :
    loadDummies 3 [Cell.b 9, Cell.b 9] = .ok [] [] :=
  c4_dummy_leniency_amended.1 3 [Cell.b 9, Cell.b 9] .structError (by decide)

/-! ### C5: the version-8 pool field -/

/-- A minimal version-8 mesh stream, truncated exactly at the byte
offset where the pool field would begin: identifier, format
POSITION|UV2 (258), zero bounding box, no bones, one vertex, its
position and UV2 passes, empty triangle/material/strip tables. -/
def meshV8Min : List Cell :=
  write_str zms8Tok ++ write_i32 258 ++
    [Cell.f 0, Cell.f 0, Cell.f 0, Cell.f 0, Cell.f 0, Cell.f 0] ++
    w16 0 ++ w16 1 ++ [Cell.f 5, Cell.f 6, Cell.f 7] ++
    [Cell.f 8, Cell.f 9] ++ w16 0 ++ w16 0 ++ w16 0

/-- The mesh `meshV8Min` decodes to. -/
def meshV8MinData : MeshImportData :=
  ⟨zms8Tok, 258, Vec3.zero, Vec3.zero, [],
    [⟨⟨5, 6, 7⟩, Vec3.zero, .initC, Vec4.zero, Vec4.zero, Vec3.zero,
      [none, some ⟨8, 9⟩, none, none]⟩],
    [], [], [], 0⟩

/-- A version-8 mesh stream truncated one byte earlier: the strip table
announces one entry but only one of its two bytes is present. -/
def meshV8StripTrunc : List Cell :=
  write_str zms8Tok ++ write_i32 0 ++
    [Cell.f 0, Cell.f 0, Cell.f 0, Cell.f 0, Cell.f 0, Cell.f 0] ++
    w16 0 ++ w16 0 ++ w16 0 ++ w16 0 ++ w16 1 ++ [Cell.b 5]

/-- C5 counterexample: a version-8 mesh stream with exactly one of the
pool field's two bytes present decodes successfully with pool = 0 — the
claim says any truncation other than exact exhaustion is fatal, but the
bare `except:` around the pool read also catches the partial-read
`struct.error`. -/
theorem c5_counterexample :
    MeshImportData.load (meshV8Min ++ [Cell.b 3]) = .ok meshV8MinData [] := by
  decide

/-- C5 amended: for version 8, ANY failure of the pool read — exact
exhaustion or a single byte present — is lenient and leaves pool at 0;
version 7 never attempts the read; and a truncation one byte earlier,
inside the strip table, is fatal. -/
theorem c5_pool_leniency_amended :
    (∀ (m : MeshImportData) (s : List Cell) (e : Err),
        read_i16 s = .err e → finishPool 8 m s = .ok m []) ∧
    (∀ (m : MeshImportData) (s : List Cell), finishPool 7 m s = .ok m s) ∧
    (∀ bs : List Nat, bs.length < 2 →
        read_i16 (bs.map Cell.b) = .err .structError) ∧
    MeshImportData.load meshV8Min = .ok meshV8MinData [] ∧
    MeshImportData.load meshV8StripTrunc = .err .structError := by
  refine ⟨?_, ?_, ?_, by decide, by decide⟩
  · intro m s e h
    simp [finishPool, h]
  · intro m s
    simp [finishPool]
  · intro bs h
    unfold read_i16
    rw [readAvail_short (Nat.le_of_lt h)]
    dsimp only
    rw [if_neg (by omega)]

/-- Witness for C5 at the one-byte pool stream. -/
theorem c5_pool_leniency_amended_witness :
    finishPool 8 meshV8MinData [Cell.b 3] = .ok meshV8MinData [] :=
  c5_pool_leniency_amended.1 meshV8MinData [Cell.b 3] .structError (by decide)

/-! ### C2: version-2 rotation gating -/

/-- A bone record loaded with `format_v_2 = True` keeps the identity
rotation. -/
theorem bone_load_v2_rotation {d : Bool} {s : List Cell} {bd : BoneData}
    {r : List Cell} (h : BoneData.load_data d true s = .ok bd r) :
    bd.rotation = Quat.one := by
  unfold BoneData.load_data at h
  obtain ⟨pn, r1, h1, h⟩ := pbind_eq_ok h
  obtain ⟨pos, r2, h2, h⟩ := pbind_eq_ok h
  rw [if_pos rfl] at h
  injection h with hbd hr
  rw [← hbd]

/-- Every record in a bone list loaded with `format_v_2 = True` keeps
the identity rotation. -/
theorem loadBoneList_v2_rotation {d : Bool} {n : Nat} {s : List Cell}
    {bds : List BoneData} {r : List Cell}
    (h : loadBoneList d true n s = .ok bds r) :
    ∀ bd ∈ bds, bd.rotation = Quat.one := by
  induction n generalizing s bds r with
  | zero =>
      unfold loadBoneList at h
      injection h with hb hr
      rw [← hb]
      intro bd hm
      simp at hm
  | succ k ih =>
      unfold loadBoneList at h
      obtain ⟨bd0, r1, h1, h⟩ := pbind_eq_ok h
      obtain ⟨bds0, r2, h2, h⟩ := pbind_eq_ok h
      injection h with hb hr
      rw [← hb]
      intro bd hm
      rcases List.mem_cons.mp hm with hcase | hcase
      · rw [hcase]
        exact bone_load_v2_rotation h1
      · exact ih h2 bd hcase

/-- A version-2 skeleton stream whose single bone record is followed by
the four rotation floats (0, 0, 1, 0) and one dummy record without
rotation. -/
def skelV2Rot : List Cell :=
  (zmd2Tok.map Cell.b) ++ write_i32 1 ++
    (write_i32 0 ++ write_str [65] ++ [Cell.f 100, Cell.f 0, Cell.f 0] ++
      [Cell.f 0, Cell.f 0, Cell.f 1, Cell.f 0]) ++
    write_i32 1 ++
    (write_str [66] ++ write_i32 0 ++ [Cell.f 7, Cell.f 0, Cell.f 0])

/-- Evaluation of the decoder on `skelV2Rot`. -/
theorem skelV2Rot_eval :
    SkeletonData.load_data skelV2Rot =
      .ok ⟨2, [⟨0, [65], ⟨1, 0, 0⟩, ⟨0, 0, 1, 0⟩⟩],
            [⟨0, [66], ⟨7 / 100, 0, 0⟩, Quat.one⟩]⟩ [] := by
  norm_num [SkeletonData.load_data, loadFormatCode, read_fstr, readAvail,
    loadBones, loadBoneList, BoneData.load_data, read_i32, read_str,
    read_vector3_f32, read_vector4_quat, read_f32, loadDummies, Vec3.sdiv,
    signed, leVal, zmd2Tok, zmd3Tok, skelV2Rot, write_i32, write_str,
    leBytes, Quat.one, pbind]

/-- C2 counterexample: decoding a version-2 skeleton DOES consume
rotation bytes for the bone (the stream above is consumed in full,
including the four rotation floats) and yields the non-identity
rotation (0, 0, 1, 0) on the bone — `_load_bones` never passes
`format_v_2`, so it defaults to `False` for bones. -/
theorem c2_counterexample :
    SkeletonData.load_data skelV2Rot =
      .ok ⟨2, [⟨0, [65], ⟨1, 0, 0⟩, ⟨0, 0, 1, 0⟩⟩],
            [⟨0, [66], ⟨7 / 100, 0, 0⟩, Quat.one⟩]⟩ [] :=
  skelV2Rot_eval

/-- C2 amended: the version-2 gating applies only to dummies — decoding
any skeleton with format code 2 yields the identity rotation on every
dummy, and encoding writes no rotation cells for version-2 dummies —
while bone records always carry rotation, in both versions (both the
bone loader and the bone saver ignore the format code). -/
theorem c2_version2_gating_amended :
    (∀ (s : List Cell) (sk : SkeletonData) (r : List Cell),
        SkeletonData.load_data s = .ok sk r → sk.format_code = 2 →
        ∀ d ∈ sk.dummies, d.rotation = Quat.one) ∧
    (∀ bd : BoneData, BoneData.save_data bd true true =
        write_str bd.name ++ write_i32 bd.parent ++
          write_vector3_f32 bd.position) ∧
    (∀ bd : BoneData, BoneData.save_data bd false false =
        write_i32 bd.parent ++ write_str bd.name ++
          write_vector3_f32 bd.position ++ write_vector4_quat bd.rotation) := by
  refine ⟨?_, ?_, ?_⟩
  · intro s sk r h hfc d hd
    unfold SkeletonData.load_data at h
    obtain ⟨fc, r1, h1, h⟩ := pbind_eq_ok h
    obtain ⟨bs, r2, h2, h⟩ := pbind_eq_ok h
    obtain ⟨ds, r3, h3, h⟩ := pbind_eq_ok h
    injection h with hsk hr
    rw [← hsk] at hfc hd
    simp only at hfc hd
    rw [hfc] at h3
    unfold loadDummies at h3
    cases hread : read_i32 r2 with
    | ok cnt r4 =>
        rw [hread] at h3
        have : loadBoneList true true cnt.toNat r4 = .ok ds r3 := by
          simpa using h3
        exact loadBoneList_v2_rotation this d hd
    | err e =>
        rw [hread] at h3
        injection h3 with hds hr3
        rw [← hds] at hd
        simp at hd
    | hang =>
        rw [hread] at h3
        exact absurd h3 (by simp)
  · intro bd
    simp [BoneData.save_data]
  · intro bd
    simp [BoneData.save_data]

/-- Witness for C2 at the concrete version-2 stream above: the decoded
dummy's rotation is the identity. -/
theorem c2_version2_gating_amended_witness :
    (⟨0, [66], ⟨7 / 100, 0, 0⟩, Quat.one⟩ : BoneData).rotation = Quat.one :=
  c2_version2_gating_amended.1 skelV2Rot
    ⟨2, [⟨0, [65], ⟨1, 0, 0⟩, ⟨0, 0, 1, 0⟩⟩],
      [⟨0, [66], ⟨7 / 100, 0, 0⟩, Quat.one⟩]⟩ [] skelV2Rot_eval rfl
    ⟨0, [66], ⟨7 / 100, 0, 0⟩, Quat.one⟩ (by simp)

/-! ### Round-trip lemmas for the skeleton codec -/

/-- The bone that decoding an encoded bone record yields: position
divided by 100, rotation reset to the identity when the record carried
none. -/
def decodedBone (v2 : Bool) (bd : BoneData) : BoneData :=
  ⟨bd.parent, bd.name, bd.position.sdiv 100, if v2 then Quat.one else bd.rotation⟩

theorem bone_load_save (bd : BoneData) (d v2 : Bool) (rest : List Cell)
    (hp1 : -(2 ^ 31) ≤ bd.parent) (hp2 : bd.parent < 2 ^ 31)
    (hnm : ∀ x ∈ bd.name, x ≠ 0) :
    BoneData.load_data d v2 (BoneData.save_data bd d v2 ++ rest) =
      .ok (decodedBone v2 bd) rest := by
  unfold BoneData.save_data BoneData.load_data decodedBone
  cases d <;> cases v2 <;>
    simp [read_i32_write _ _ hp1 hp2, read_str_write _ _ hnm,
      read_vector3_f32_write, read_vector4_quat_write, List.append_assoc]

/-- Decoding a run of encoded bone records. -/
theorem loadBoneList_save (bds : List BoneData) (d v2 : Bool)
    (rest : List Cell)
    (h : ∀ bd ∈ bds, (-(2 ^ 31) ≤ bd.parent ∧ bd.parent < 2 ^ 31) ∧
        ∀ x ∈ bd.name, x ≠ 0) :
    loadBoneList d v2 bds.length
        ((bds.map fun bd => bd.save_data d v2).flatten ++ rest) =
      .ok (bds.map (decodedBone v2)) rest := by
  induction bds with
  | nil => simp [loadBoneList]
  | cons bd bds ih =>
      have hb := h bd (List.mem_cons_self bd bds)
      have ht : ∀ b ∈ bds, (-(2 ^ 31) ≤ b.parent ∧ b.parent < 2 ^ 31) ∧
          ∀ x ∈ b.name, x ≠ 0 := fun b hbm => h b (List.mem_cons_of_mem bd hbm)
      simp only [List.map_cons, List.flatten_cons, List.length_cons,
        List.append_assoc]
      unfold loadBoneList
      rw [bone_load_save bd d v2 _ hb.1.1 hb.1.2 hb.2, pbind_ok, ih ht,
        pbind_ok]

theorem loadFormatCode_save (fc : ℤ) (rest : List Cell)
    (h : fc = 2 ∨ fc = 3) :
    loadFormatCode (saveFormatCode fc ++ rest) = .ok fc rest := by
  rcases h with h | h <;> subst h
  · have hs : saveFormatCode 2 = zmd2Tok.map Cell.b := by decide
    rw [hs]
    unfold loadFormatCode
    rw [read_fstr_exact (by decide : zmd2Tok.length = 7), pbind_ok]
    rw [if_neg (by decide), if_pos rfl]
  · have hs : saveFormatCode 3 = zmd3Tok.map Cell.b := by decide
    rw [hs]
    unfold loadFormatCode
    rw [read_fstr_exact (by decide : zmd3Tok.length = 7), pbind_ok]
    rw [if_pos rfl]

/-! ### C1: the skeleton round trip -/

/-- A skeleton value the encoder can serialize losslessly up to the
position scaling: a recognized format code, zero-free names,
`int32`-range parent indices and list lengths, and — since a version-2
record carries no rotation — identity rotations on version-2 dummies. -/
def Canonical (sk : SkeletonData) : Prop :=
  (sk.format_code = 2 ∨ sk.format_code = 3) ∧
  (sk.bones.length : ℤ) < 2 ^ 31 ∧ (sk.dummies.length : ℤ) < 2 ^ 31 ∧
  (∀ bd ∈ sk.bones, (-(2 ^ 31) ≤ bd.parent ∧ bd.parent < 2 ^ 31) ∧
      ∀ x ∈ bd.name, x ≠ 0) ∧
  (∀ bd ∈ sk.dummies, (-(2 ^ 31) ≤ bd.parent ∧ bd.parent < 2 ^ 31) ∧
      ∀ x ∈ bd.name, x ≠ 0) ∧
  (sk.format_code = 2 → ∀ d ∈ sk.dummies, d.rotation = Quat.one)

/-- The same skeleton with every bone and dummy position divided by
100. -/
def skDiv100 (sk : SkeletonData) : SkeletonData :=
  ⟨sk.format_code,
    sk.bones.map fun bd => { bd with position := bd.position.sdiv 100 },
    sk.dummies.map fun bd => { bd with position := bd.position.sdiv 100 }⟩

/-- A well-formed version-3 skeleton stream: one bone (parent 0, name
"A", raw position (100, 0, 0), identity rotation) and a present dummy
count of zero. -/
def skelRT : List Cell :=
  (zmd3Tok.map Cell.b) ++ write_i32 1 ++
    (write_i32 0 ++ write_str [65] ++ [Cell.f 100, Cell.f 0, Cell.f 0] ++
      [Cell.f 1, Cell.f 0, Cell.f 0, Cell.f 0]) ++
    write_i32 0

/-- The skeleton `skelRT` decodes to: the position has become
(1, 0, 0). -/
def skelRTData : SkeletonData :=
  ⟨3, [⟨0, [65], ⟨1, 0, 0⟩, ⟨1, 0, 0, 0⟩⟩], []⟩

/-- Evaluation of the decoder on `skelRT`. -/
theorem skelRT_eval :
    SkeletonData.load_data skelRT = .ok skelRTData [] := by
  norm_num [SkeletonData.load_data, loadFormatCode, read_fstr, readAvail,
    loadBones, loadBoneList, BoneData.load_data, read_i32, read_str,
    read_vector3_f32, read_vector4_quat, read_f32, loadDummies, Vec3.sdiv,
    signed, leVal, zmd3Tok, skelRT, skelRTData, write_i32, write_str,
    leBytes, pbind]

/-- C1 counterexample: the stream `skelRT` decodes cleanly and in full,
but re-encoding the decoded skeleton does not reproduce the stream —
the encoder writes the position as stored (1, not the original raw
100), since `save_data` never multiplies positions back by 100. -/
theorem c1_counterexample :
    SkeletonData.load_data skelRT = .ok skelRTData [] ∧
      SkeletonData.save_data skelRTData ≠ skelRT := by
  exact ⟨skelRT_eval, by decide⟩

/-- C1 amended: the round trip is the identity on everything except
positions, which come back divided by 100: decoding the encoder's
output of any canonical skeleton succeeds, consumes the whole stream,
and yields the same skeleton with every bone and dummy position divided
by 100 (the decoder divides by 100 but the encoder never multiplies
back — the ×100 lives in the scene-export layer, outside the codec). -/
theorem c1_roundtrip_amended (sk : SkeletonData) (h : Canonical sk) :
    SkeletonData.load_data (SkeletonData.save_data sk) =
      .ok (skDiv100 sk) [] := by
  obtain ⟨hfc, hbl, hdl, hbs, hds, hrot⟩ := h
  unfold SkeletonData.save_data SkeletonData.load_data
  rw [List.append_assoc, loadFormatCode_save sk.format_code _ hfc, pbind_ok]
  unfold loadBones saveBones
  rw [List.append_assoc, read_i32_write _ _ (by omega) hbl, pbind_ok,
    Int.toNat_natCast]
  rw [loadBoneList_save sk.bones false false _ hbs, pbind_ok]
  unfold loadDummies saveDummies
  rw [read_i32_write _ _ (by omega) hdl]
  dsimp only
  rw [Int.toNat_natCast]
  rw [show ((sk.dummies.map fun bd =>
      bd.save_data true (decide (sk.format_code = 2))).flatten) =
      (sk.dummies.map fun bd =>
        bd.save_data true (decide (sk.format_code = 2))).flatten ++ [] from
    (List.append_nil _).symm]
  rw [loadBoneList_save sk.dummies true (decide (sk.format_code = 2)) [] hds,
    pbind_ok]
  unfold skDiv100
  have hb : sk.bones.map (decodedBone false) =
      sk.bones.map fun bd => { bd with position := bd.position.sdiv 100 } := by
    apply List.map_congr_left
    intro bd hbd
    unfold decodedBone
    simp
  have hd2 : sk.dummies.map (decodedBone (decide (sk.format_code = 2))) =
      sk.dummies.map fun bd => { bd with position := bd.position.sdiv 100 } := by
    apply List.map_congr_left
    intro bd hbd
    unfold decodedBone
    simp only [BoneData.mk.injEq, ite_eq_right_iff, decide_eq_true_eq]
    exact ⟨trivial, trivial, trivial, fun h2 => (hrot h2 bd hbd).symm⟩
  rw [hb, hd2]

/-- Witness for C1 at the concrete decoded skeleton `skelRTData`. -/
theorem c1_roundtrip_amended_witness :
    SkeletonData.load_data (SkeletonData.save_data skelRTData) =
      .ok (skDiv100 skelRTData) [] :=
  c1_roundtrip_amended skelRTData (by unfold Canonical; decide)

/-! ### C3: scaling asymmetry -/

/-- C3 counterexample: encoding a bone whose stored position is
(1, 2, 3) writes the float cells 1, 2, 3 — not the 100-fold values the
claim's "multiplied by 100 on encode" would produce. -/
theorem c3_counterexample :
    BoneData.save_data ⟨0, [65], ⟨1, 2, 3⟩, Quat.one⟩ false false =
      write_i32 0 ++ write_str [65] ++
        [Cell.f 1, Cell.f 2, Cell.f 3] ++ write_vector4_quat Quat.one ∧
    write_i32 0 ++ write_str [65] ++ [Cell.f 1, Cell.f 2, Cell.f 3] ++
        write_vector4_quat Quat.one ≠
      write_i32 0 ++ write_str [65] ++
        [Cell.f 100, Cell.f 200, Cell.f 300] ++
        write_vector4_quat Quat.one := by
  constructor
  · simp [BoneData.save_data, write_vector3_f32, write_f32]
  · decide

/-- C3 amended: positions are divided by 100 when decoding skeleton bone
records and animation position payloads; mesh vertex positions are
stored exactly as read; but the skeleton encoder writes positions
unscaled (no ×100 on encode — callers pre-scale outside the codec). -/
theorem c3_scaling_amended :
    (∀ (p : ℤ) (nm : List Nat) (x y z : ℚ) (rot : Quat) (rest : List Cell),
        -(2 ^ 31) ≤ p → p < 2 ^ 31 → (∀ b ∈ nm, b ≠ 0) →
        BoneData.load_data false false
            (write_i32 p ++ write_str nm ++ [Cell.f x, Cell.f y, Cell.f z] ++
              write_vector4_quat rot ++ rest) =
          .ok ⟨p, nm, ⟨x / 100, y / 100, z / 100⟩, rot⟩ rest) ∧
    (∀ (c : ChannelData) (x y z : ℚ) (rest : List Cell),
        c.positions_enabled = true →
        stepPosRot c (Cell.f x :: Cell.f y :: Cell.f z :: rest) =
          .ok { c with position := c.position ++ [⟨x / 100, y / 100, z / 100⟩] }
            rest) ∧
    (∀ (v : Vertex) (x y z : ℚ) (rest : List Cell),
        gatedPass true
            (fun v t => pbind (read_vector3_f32 t) fun p u =>
              .ok { v with position := p } u)
            [v] (Cell.f x :: Cell.f y :: Cell.f z :: rest) =
          .ok [{ v with position := ⟨x, y, z⟩ }] rest) ∧
    (∀ bd : BoneData, BoneData.save_data bd false false =
        write_i32 bd.parent ++ write_str bd.name ++
          [Cell.f bd.position.x, Cell.f bd.position.y, Cell.f bd.position.z] ++
          write_vector4_quat bd.rotation) := by
  refine ⟨?_, ?_, ?_, ?_⟩
  · intro p nm x y z rot rest h1 h2 hnm
    have h := bone_load_save ⟨p, nm, ⟨x, y, z⟩, rot⟩ false false rest h1 h2 hnm
    simp only [BoneData.save_data, decodedBone, Bool.false_eq_true, if_false,
      write_vector3_f32, write_f32] at h
    simpa [Vec3.sdiv] using h
  · intro c x y z rest hpos
    unfold stepPosRot
    rw [if_pos hpos]
    simp [read_f32]
  · intro v x y z rest
    simp [gatedPass, mapPass, read_vector3_f32, read_f32]
  · intro bd
    simp [BoneData.save_data, write_vector3_f32, write_f32]

/-- Witness for C3 at concrete inputs: a bone record with raw position
(100, 0, 0) decodes to position (1, 0, 0); a position-enabled channel
frame with floats (200, 0, 0) appends (2, 0, 0); a mesh position pass
over floats (5, 6, 7) stores (5, 6, 7) unchanged. -/
theorem c3_scaling_amended_witness :
    BoneData.load_data false false
        (write_i32 0 ++ write_str [65] ++
          [Cell.f 100, Cell.f 0, Cell.f 0] ++ write_vector4_quat Quat.one ++
          []) =
      .ok ⟨0, [65], ⟨100 / 100, 0 / 100, 0 / 100⟩, Quat.one⟩ [] ∧
    stepPosRot (ChannelData.init 2 0) [Cell.f 200, Cell.f 0, Cell.f 0] =
      .ok { ChannelData.init 2 0 with
              position := (ChannelData.init 2 0).position ++
                [⟨200 / 100, 0 / 100, 0 / 100⟩] } [] ∧
    gatedPass true
        (fun v t => pbind (read_vector3_f32 t) fun p u =>
          .ok { v with position := p } u)
        [Vertex.init] [Cell.f 5, Cell.f 6, Cell.f 7] =
      .ok [{ Vertex.init with position := ⟨5, 6, 7⟩ }] [] :=
  ⟨c3_scaling_amended.1 0 [65] 100 0 0 Quat.one [] (by decide) (by decide)
      (by decide),
    c3_scaling_amended.2.1 (ChannelData.init 2 0) 200 0 0 [] (by decide),
    c3_scaling_amended.2.2.1 Vertex.init 5 6 7 []⟩

/-! ### C9: bitmask field isolation in the mesh decoder -/

/-- The optional vertex fields other than position and the second UV
layer, all at their `Vertex()` defaults. -/
def DefaultishV (v : Vertex) : Prop :=
  v.normal = Vec3.zero ∧ v.color = .initC ∧ v.bone_weights = Vec4.zero ∧
    v.bone_indices = Vec4.zero ∧ v.tangent = Vec3.zero ∧
    v.uv_layers = [none, none, none, none]

/-- The position pass touches no field but `position`. -/
theorem mapPass_pos_defaultish {vs vs' : List Vertex} {s r : List Cell}
    (h : mapPass
        (fun v t => pbind (read_vector3_f32 t) fun p u =>
          .ok { v with position := p } u) vs s = .ok vs' r)
    (hvs : ∀ v ∈ vs, DefaultishV v) : ∀ v ∈ vs', DefaultishV v := by
  induction vs generalizing s vs' r with
  | nil =>
      unfold mapPass at h
      injection h with h1 h2
      rw [← h1]
      intro v hv
      simp at hv
  | cons v0 vs0 ih =>
      unfold mapPass at h
      obtain ⟨v1, r1, h1, h⟩ := pbind_eq_ok h
      obtain ⟨vs1, r2, h2, h⟩ := pbind_eq_ok h
      obtain ⟨p, r3, hp, h1⟩ := pbind_eq_ok h1
      injection h with hv1 hr
      injection h1 with hv0 hr3
      rw [← hv1]
      intro v hv
      rcases List.mem_cons.mp hv with hc | hc
      · have h0 := hvs v0 (List.mem_cons_self v0 vs0)
        rw [hc, ← hv0]
        exact h0
      · exact ih h2 (fun w hw => hvs w (List.mem_cons_of_mem v0 hw)) v hc

/-- The UV2 pass sets `uv_layers[1]` and touches nothing else. -/
theorem mapPass_uv2_defaultish {vs vs' : List Vertex} {s r : List Cell}
    (h : mapPass
        (fun v t => pbind (read_vector2_f32 t) fun p u =>
          .ok { v with uv_layers := v.uv_layers.set 1 (some p) } u)
        vs s = .ok vs' r)
    (hvs : ∀ v ∈ vs, DefaultishV v) :
    ∀ v ∈ vs',
      v.normal = Vec3.zero ∧ v.color = .initC ∧ v.bone_weights = Vec4.zero ∧
        v.bone_indices = Vec4.zero ∧ v.tangent = Vec3.zero ∧
        ∃ uv, v.uv_layers = [none, some uv, none, none] := by
  induction vs generalizing s vs' r with
  | nil =>
      unfold mapPass at h
      injection h with h1 h2
      rw [← h1]
      intro v hv
      simp at hv
  | cons v0 vs0 ih =>
      unfold mapPass at h
      obtain ⟨v1, r1, h1, h⟩ := pbind_eq_ok h
      obtain ⟨vs1, r2, h2, h⟩ := pbind_eq_ok h
      obtain ⟨p, r3, hp, h1⟩ := pbind_eq_ok h1
      injection h with hv1 hr
      injection h1 with hv0 hr3
      rw [← hv1]
      intro v hv
      rcases List.mem_cons.mp hv with hc | hc
      · obtain ⟨hn, hcol, hw, hbi, ht, huv⟩ :=
          hvs v0 (List.mem_cons_self v0 vs0)
        rw [hc, ← hv0]
        refine ⟨hn, hcol, hw, hbi, ht, p, ?_⟩
        rw [huv]
        rfl
      · exact ih h2 (fun w hw => hvs w (List.mem_cons_of_mem v0 hw)) v hc

/-- The trailing pool block never touches the vertices or the format. -/
theorem finishPool_fields {ver : ℤ} {mm m : MeshImportData}
    {s r : List Cell} (h : finishPool ver mm s = .ok m r) :
    m.vertices = mm.vertices ∧ m.format = mm.format := by
  unfold finishPool at h
  split at h
  · cases hr : read_i16 s with
    | ok p r2 =>
        rw [hr] at h
        injection h with h1 h2
        rw [← h1]
        exact ⟨rfl, rfl⟩
    | err e =>
        rw [hr] at h
        injection h with h1 h2
        rw [← h1]
        exact ⟨rfl, rfl⟩
    | hang =>
        rw [hr] at h
        exact absurd h (by simp)
  · injection h with h1 h2
    rw [← h1]
    exact ⟨rfl, rfl⟩

/-- C9: decoding any mesh stream whose vertex-format bitmask is exactly
POSITION|UV2 (258) yields vertices whose other optional fields are all
at their defaults, with the second UV layer populated (and only it). -/
theorem c9_bitmask_isolation (s : List Cell) (m : MeshImportData)
    (r : List Cell) (hload : MeshImportData.load s = .ok m r)
    (hfmt : m.format = 258) :
    ∀ v ∈ m.vertices,
      v.normal = Vec3.zero ∧ v.color = .initC ∧ v.bone_weights = Vec4.zero ∧
        v.bone_indices = Vec4.zero ∧ v.tangent = Vec3.zero ∧
        ∃ uv, v.uv_layers = [none, some uv, none, none] := by
  unfold MeshImportData.load at hload
  obtain ⟨ident, r0, hident, hload⟩ := pbind_eq_ok hload
  obtain ⟨version, r1, hver, hload⟩ := pbind_eq_ok hload
  obtain ⟨fmt, r2, hfmt2, hload⟩ := pbind_eq_ok hload
  obtain ⟨bbmin, r3, hbb1, hload⟩ := pbind_eq_ok hload
  obtain ⟨bbmax, r4, hbb2, hload⟩ := pbind_eq_ok hload
  obtain ⟨bone_count, r5, hbc, hload⟩ := pbind_eq_ok hload
  obtain ⟨bones, r6, hbones, hload⟩ := pbind_eq_ok hload
  obtain ⟨vert_count, r7, hvc, hload⟩ := pbind_eq_ok hload
  obtain ⟨vs1, r8, hvs1, hload⟩ := pbind_eq_ok hload
  obtain ⟨vs2, r9, hvs2, hload⟩ := pbind_eq_ok hload
  obtain ⟨vs3, r10, hvs3, hload⟩ := pbind_eq_ok hload
  obtain ⟨vs4, r11, hvs4, hload⟩ := pbind_eq_ok hload
  obtain ⟨vs5, r12, hvs5, hload⟩ := pbind_eq_ok hload
  obtain ⟨vs6, r13, hvs6, hload⟩ := pbind_eq_ok hload
  obtain ⟨vs7, r14, hvs7, hload⟩ := pbind_eq_ok hload
  obtain ⟨vs8, r15, hvs8, hload⟩ := pbind_eq_ok hload
  obtain ⟨vs9, r16, hvs9, hload⟩ := pbind_eq_ok hload
  obtain ⟨index_count, r17, hic, hload⟩ := pbind_eq_ok hload
  obtain ⟨inds, r18, hinds, hload⟩ := pbind_eq_ok hload
  obtain ⟨material_count, r19, hmc, hload⟩ := pbind_eq_ok hload
  obtain ⟨mats, r20, hmats, hload⟩ := pbind_eq_ok hload
  obtain ⟨strip_count, r21, hsc, hload⟩ := pbind_eq_ok hload
  obtain ⟨strps, r22, hstrps, hload⟩ := pbind_eq_ok hload
  obtain ⟨hmv, hmf⟩ := finishPool_fields hload
  simp only at hmv hmf
  have hfmt258 : fmt = 258 := hmf.symm.trans hfmt
  subst hfmt258
  rw [hmv]
  have hgNorm : vs2 = vs1 := by
    rw [show fmtNormal 258 = false from by decide] at hvs2
    unfold gatedPass at hvs2
    rw [if_neg (by simp)] at hvs2
    injection hvs2 with h1 h2
    exact h1.symm
  have hgCol : vs3 = vs2 := by
    rw [show fmtColor 258 = false from by decide] at hvs3
    unfold gatedPass at hvs3
    rw [if_neg (by simp)] at hvs3
    injection hvs3 with h1 h2
    exact h1.symm
  have hgBones : vs4 = vs3 := by
    rw [show fmtBones 258 = false from by decide] at hvs4
    unfold gatedPass at hvs4
    rw [if_neg (by simp)] at hvs4
    injection hvs4 with h1 h2
    exact h1.symm
  have hgTan : vs5 = vs4 := by
    rw [show fmtTangent 258 = false from by decide] at hvs5
    unfold gatedPass at hvs5
    rw [if_neg (by simp)] at hvs5
    injection hvs5 with h1 h2
    exact h1.symm
  have hgUV1 : vs6 = vs5 := by
    rw [show fmtUV1 258 = false from by decide] at hvs6
    unfold gatedPass at hvs6
    rw [if_neg (by simp)] at hvs6
    injection hvs6 with h1 h2
    exact h1.symm
  have hgUV3 : vs8 = vs7 := by
    rw [show fmtUV3 258 = false from by decide] at hvs8
    unfold gatedPass at hvs8
    rw [if_neg (by simp)] at hvs8
    injection hvs8 with h1 h2
    exact h1.symm
  have hgUV4 : vs9 = vs8 := by
    rw [show fmtUV4 258 = false from by decide] at hvs9
    unfold gatedPass at hvs9
    rw [if_neg (by simp)] at hvs9
    injection hvs9 with h1 h2
    exact h1.symm
  have hinit : ∀ v ∈ List.replicate vert_count.toNat Vertex.init,
      DefaultishV v := by
    intro v hv
    rw [List.eq_of_mem_replicate hv]
    exact ⟨rfl, rfl, rfl, rfl, rfl, rfl⟩
  have hpos1 : ∀ v ∈ vs1, DefaultishV v := by
    rw [show fmtPosition 258 = true from by decide] at hvs1
    unfold gatedPass at hvs1
    rw [if_pos rfl] at hvs1
    exact mapPass_pos_defaultish hvs1 hinit
  rw [hgUV4, hgUV3]
  rw [hgUV1, hgTan, hgBones, hgCol, hgNorm] at hvs7
  rw [show fmtUV2 258 = true from by decide] at hvs7
  unfold gatedPass at hvs7
  rw [if_pos rfl] at hvs7
  exact mapPass_uv2_defaultish hvs7 hpos1

/-- Witness for C9 at the concrete POSITION|UV2 mesh stream
`meshV8Min`. -/
theorem c9_bitmask_isolation_witness :
    (⟨⟨5, 6, 7⟩, Vec3.zero, .initC, Vec4.zero, Vec4.zero, Vec3.zero,
        [none, some ⟨8, 9⟩, none, none]⟩ : Vertex).normal = Vec3.zero ∧
      (⟨⟨5, 6, 7⟩, Vec3.zero, .initC, Vec4.zero, Vec4.zero, Vec3.zero,
        [none, some ⟨8, 9⟩, none, none]⟩ : Vertex).color = .initC ∧
      (⟨⟨5, 6, 7⟩, Vec3.zero, .initC, Vec4.zero, Vec4.zero, Vec3.zero,
        [none, some ⟨8, 9⟩, none, none]⟩ : Vertex).bone_weights = Vec4.zero ∧
      (⟨⟨5, 6, 7⟩, Vec3.zero, .initC, Vec4.zero, Vec4.zero, Vec3.zero,
        [none, some ⟨8, 9⟩, none, none]⟩ : Vertex).bone_indices = Vec4.zero ∧
      (⟨⟨5, 6, 7⟩, Vec3.zero, .initC, Vec4.zero, Vec4.zero, Vec3.zero,
        [none, some ⟨8, 9⟩, none, none]⟩ : Vertex).tangent = Vec3.zero ∧
      ∃ uv, (⟨⟨5, 6, 7⟩, Vec3.zero, .initC, Vec4.zero, Vec4.zero, Vec3.zero,
        [none, some ⟨8, 9⟩, none, none]⟩ : Vertex).uv_layers =
          [none, some uv, none, none] :=
  c9_bitmask_isolation meshV8Min meshV8MinData [] (by decide) (by decide)
    ⟨⟨5, 6, 7⟩, Vec3.zero, .initC, Vec4.zero, Vec4.zero, Vec3.zero,
      [none, some ⟨8, 9⟩, none, none]⟩ (by simp [meshV8MinData])

/-! ### C6: position/rotation mutual exclusion in animation channels -/

theorem stepPosRot_pos {c c' : ChannelData} {s r : List Cell}
    (hp : c.positions_enabled = true) (h : stepPosRot c s = .ok c' r) :
    c'.position.length = c.position.length + 1 ∧ c'.rotation = c.rotation ∧
      c'.type = c.type := by
  unfold stepPosRot at h
  rw [if_pos hp] at h
  obtain ⟨x, r1, hx, h⟩ := pbind_eq_ok h
  obtain ⟨y, r2, hy, h⟩ := pbind_eq_ok h
  obtain ⟨z, r3, hz, h⟩ := pbind_eq_ok h
  injection h with h1 h2
  rw [← h1]
  simp

theorem stepPosRot_type {c c' : ChannelData} {s r : List Cell}
    (h : stepPosRot c s = .ok c' r) : c'.type = c.type := by
  unfold stepPosRot at h
  split at h
  · obtain ⟨x, r1, hx, h⟩ := pbind_eq_ok h
    obtain ⟨y, r2, hy, h⟩ := pbind_eq_ok h
    obtain ⟨z, r3, hz, h⟩ := pbind_eq_ok h
    injection h with h1 h2
    rw [← h1]
  · split at h
    · obtain ⟨w, r1, hw, h⟩ := pbind_eq_ok h
      obtain ⟨x, r2, hx, h⟩ := pbind_eq_ok h
      obtain ⟨y, r3, hy, h⟩ := pbind_eq_ok h
      obtain ⟨z, r4, hz, h⟩ := pbind_eq_ok h
      injection h with h1 h2
      rw [← h1]
    · injection h with h1 h2
      rw [← h1]

theorem stepNormal_pres {c c' : ChannelData} {s r : List Cell}
    (h : stepNormal c s = .ok c' r) :
    c'.position = c.position ∧ c'.rotation = c.rotation ∧
      c'.type = c.type := by
  unfold stepNormal at h
  split at h
  · obtain ⟨x, r1, hx, h⟩ := pbind_eq_ok h
    obtain ⟨y, r2, hy, h⟩ := pbind_eq_ok h
    obtain ⟨z, r3, hz, h⟩ := pbind_eq_ok h
    injection h with h1 h2
    rw [← h1]
    exact ⟨rfl, rfl, rfl⟩
  · injection h with h1 h2
    rw [← h1]
    exact ⟨rfl, rfl, rfl⟩

theorem stepAlpha_pres {c : ChannelData} {av : Option ℚ}
    {q : ChannelData × Option ℚ} {s r : List Cell}
    (h : stepAlpha c av s = .ok q r) :
    q.1.position = c.position ∧ q.1.rotation = c.rotation ∧
      q.1.type = c.type := by
  unfold stepAlpha at h
  split at h
  · obtain ⟨a, r1, ha, h⟩ := pbind_eq_ok h
    injection h with h1 h2
    rw [← h1]
    exact ⟨rfl, rfl, rfl⟩
  · injection h with h1 h2
    rw [← h1]
    exact ⟨rfl, rfl, rfl⟩

theorem stepUV_pres {en : Bool} {upd : ChannelData → Vec2 → ChannelData}
    {c c' : ChannelData} {s r : List Cell}
    (h : stepUV en upd c s = .ok c' r)
    (hupd : ∀ cc v, (upd cc v).position = cc.position ∧
        (upd cc v).rotation = cc.rotation ∧ (upd cc v).type = cc.type) :
    c'.position = c.position ∧ c'.rotation = c.rotation ∧
      c'.type = c.type := by
  unfold stepUV at h
  split at h
  · obtain ⟨x, r1, hx, h⟩ := pbind_eq_ok h
    obtain ⟨y, r2, hy, h⟩ := pbind_eq_ok h
    injection h with h1 h2
    rw [← h1]
    exact hupd c ⟨x, y⟩
  · injection h with h1 h2
    rw [← h1]
    exact ⟨rfl, rfl, rfl⟩

theorem stepTexture_pres {c : ChannelData} {av : Option ℚ}
    {c' : ChannelData} {s r : List Cell}
    (h : stepTexture c av s = .ok c' r) :
    c'.position = c.position ∧ c'.rotation = c.rotation ∧
      c'.type = c.type := by
  unfold stepTexture at h
  split at h
  · obtain ⟨ta, r1, hta, h⟩ := pbind_eq_ok h
    split at h
    · injection h with h1 h2
      rw [← h1]
      exact ⟨rfl, rfl, rfl⟩
    · exact absurd h (by simp)
  · injection h with h1 h2
    rw [← h1]
    exact ⟨rfl, rfl, rfl⟩

theorem stepScale_pres {c : ChannelData} {av : Option ℚ}
    {c' : ChannelData} {s r : List Cell}
    (h : stepScale c av s = .ok c' r) :
    c'.position = c.position ∧ c'.rotation = c.rotation ∧
      c'.type = c.type := by
  unfold stepScale at h
  split at h
  · obtain ⟨sc, r1, hsc, h⟩ := pbind_eq_ok h
    split at h
    · injection h with h1 h2
      rw [← h1]
      exact ⟨rfl, rfl, rfl⟩
    · exact absurd h (by simp)
  · injection h with h1 h2
    rw [← h1]
    exact ⟨rfl, rfl, rfl⟩

/-- One channel-frame step: the track type is preserved, and on a
position-enabled channel exactly one position is appended while the
rotation sequence is untouched (the `elif` never fires). -/
theorem loadChannelStep_rel {c : ChannelData} {av : Option ℚ}
    {q : ChannelData × Option ℚ} {s r : List Cell}
    (h : loadChannelStep c av s = .ok q r) :
    q.1.type = c.type ∧ (c.positions_enabled = true →
      q.1.position.length = c.position.length + 1 ∧
        q.1.rotation = c.rotation) := by
  unfold loadChannelStep at h
  obtain ⟨c1, r1, h1, h⟩ := pbind_eq_ok h
  obtain ⟨c2, r2, h2, h⟩ := pbind_eq_ok h
  obtain ⟨ca, r3, h3, h⟩ := pbind_eq_ok h
  obtain ⟨c4, r4, h4, h⟩ := pbind_eq_ok h
  obtain ⟨c5, r5, h5, h⟩ := pbind_eq_ok h
  obtain ⟨c6, r6, h6, h⟩ := pbind_eq_ok h
  obtain ⟨c7, r7, h7, h⟩ := pbind_eq_ok h
  obtain ⟨c8, r8, h8, h⟩ := pbind_eq_ok h
  obtain ⟨c9, r9, h9, h⟩ := pbind_eq_ok h
  injection h with hq hr
  have p2 := stepNormal_pres h2
  have p3 := stepAlpha_pres h3
  have p4 := stepUV_pres h4 fun cc v => ⟨rfl, rfl, rfl⟩
  have p5 := stepUV_pres h5 fun cc v => ⟨rfl, rfl, rfl⟩
  have p6 := stepUV_pres h6 fun cc v => ⟨rfl, rfl, rfl⟩
  have p7 := stepUV_pres h7 fun cc v => ⟨rfl, rfl, rfl⟩
  have p8 := stepTexture_pres h8
  have p9 := stepScale_pres h9
  have hq1 : q.1 = c9 := by rw [← hq]
  have hposEq : c9.position = ca.1.position := by
    rw [p9.1, p8.1, p7.1, p6.1, p5.1, p4.1]
  have hrotEq : c9.rotation = ca.1.rotation := by
    rw [p9.2.1, p8.2.1, p7.2.1, p6.2.1, p5.2.1, p4.2.1]
  have htyEq : c9.type = ca.1.type := by
    rw [p9.2.2, p8.2.2, p7.2.2, p6.2.2, p5.2.2, p4.2.2]
  constructor
  · rw [hq1, htyEq, p3.2.2, p2.2.2]
    exact stepPosRot_type h1
  · intro hp
    obtain ⟨hl, hrot, hty⟩ := stepPosRot_pos hp h1
    constructor
    · rw [hq1, hposEq, p3.1, p2.1, hl]
    · rw [hq1, hrotEq, p3.2.1, p2.2.1, hrot]

/-- The per-frame relation between a channel before and after `n`
frames of `_load_channel_data`. -/
def FrameRel (n : Nat) (c c' : ChannelData) : Prop :=
  c'.type = c.type ∧ (c.positions_enabled = true →
    c'.position.length = c.position.length + n ∧ c'.rotation = c.rotation)

theorem loadChannelsPass_rel {cs : List ChannelData} {av : Option ℚ}
    {q : List ChannelData × Option ℚ} {s r : List Cell}
    (h : loadChannelsPass cs av s = .ok q r) :
    List.Forall₂ (FrameRel 1) cs q.1 := by
  induction cs generalizing av q s r with
  | nil =>
      unfold loadChannelsPass at h
      injection h with h1 h2
      rw [← h1]
      exact .nil
  | cons c cs0 ih =>
      unfold loadChannelsPass at h
      obtain ⟨ca, r1, h1, h⟩ := pbind_eq_ok h
      obtain ⟨csa, r2, h2, h⟩ := pbind_eq_ok h
      injection h with hq hr
      rw [← hq]
      exact .cons (loadChannelStep_rel h1) (ih h2)

theorem frameRel_trans {m n : Nat} {a b c : ChannelData}
    (h1 : FrameRel m a b) (h2 : FrameRel n b c) : FrameRel (m + n) a c := by
  obtain ⟨ht1, hp1⟩ := h1
  obtain ⟨ht2, hp2⟩ := h2
  refine ⟨ht2.trans ht1, fun hp => ?_⟩
  have hbp : b.positions_enabled = true := by
    unfold ChannelData.positions_enabled at hp ⊢
    rw [ht1]
    exact hp
  obtain ⟨hl1, hr1⟩ := hp1 hp
  obtain ⟨hl2, hr2⟩ := hp2 hbp
  constructor
  · rw [hl2, hl1]
    omega
  · exact hr2.trans hr1

theorem forall₂_frameRel_comp {m n : Nat} {l1 l2 l3 : List ChannelData}
    (h1 : List.Forall₂ (FrameRel m) l1 l2)
    (h2 : List.Forall₂ (FrameRel n) l2 l3) :
    List.Forall₂ (FrameRel (m + n)) l1 l3 := by
  induction h1 generalizing l3 with
  | nil =>
      cases h2
      exact .nil
  | cons hab h1t ih =>
      cases h2 with
      | cons hbc h2t => exact .cons (frameRel_trans hab hbc) (ih h2t)

theorem loadChannelData_rel {n : Nat} {cs : List ChannelData}
    {av : Option ℚ} {q : List ChannelData × Option ℚ} {s r : List Cell}
    (h : loadChannelData n cs av s = .ok q r) :
    List.Forall₂ (FrameRel n) cs q.1 := by
  induction n generalizing cs av q s r with
  | zero =>
      unfold loadChannelData at h
      injection h with h1 h2
      rw [← h1]
      exact List.forall₂_same.mpr fun c hc => ⟨rfl, fun _ => ⟨by omega, rfl⟩⟩
  | succ k ih =>
      unfold loadChannelData at h
      obtain ⟨csa, r1, h1, h⟩ := pbind_eq_ok h
      have hcomp := forall₂_frameRel_comp (loadChannelsPass_rel h1) (ih h)
      have hia : 1 + k = k + 1 := Nat.add_comm 1 k
      rw [hia] at hcomp
      exact hcomp

/-- C6: a channel whose track type has both the POSITION and ROTATION
bits set, starting with fresh (empty) sequences as `_setup_channels`
creates them, ends a successful 3-frame `_load_channel_data` with a
position sequence of length 3 and an empty rotation sequence: only the
position branch ever executes. -/
theorem c6_mutual_exclusion (cs cs' : List ChannelData) (av' : Option ℚ)
    (s r : List Cell) (j : Nat) (hj : j < cs.length)
    (hpos : (cs.get ⟨j, hj⟩).positions_enabled = true)
    (hrotbit : (cs.get ⟨j, hj⟩).rotations_enabled = true)
    (hfresh : (cs.get ⟨j, hj⟩).position = [] ∧ (cs.get ⟨j, hj⟩).rotation = [])
    (h : loadChannelData 3 cs none s = .ok (cs', av') r) :
    ∃ hj2 : j < cs'.length,
      (cs'.get ⟨j, hj2⟩).position.length = 3 ∧
        (cs'.get ⟨j, hj2⟩).rotation = [] := by
  have hrel := loadChannelData_rel h
  obtain ⟨hlen, hget⟩ := List.forall₂_iff_get.mp hrel
  refine ⟨hlen ▸ hj, ?_⟩
  obtain ⟨ht, hp⟩ := hget j hj (hlen ▸ hj)
  obtain ⟨hl, hr⟩ := hp hpos
  constructor
  · rw [hl, hfresh.1]
    rfl
  · rw [hr, hfresh.2]

/-- Evaluation of three both-bits frames on a concrete stream: the
channel with track type 6 (POSITION|ROTATION) consumes three positions
and nothing else. -/
theorem zmoBoth_eval :
    loadChannelData 3 [ChannelData.init 6 0] none
        [Cell.f 10, Cell.f 20, Cell.f 30, Cell.f 40, Cell.f 50, Cell.f 60,
          Cell.f 70, Cell.f 80, Cell.f 90] =
      .ok ([⟨0, 6, [⟨1 / 10, 1 / 5, 3 / 10⟩, ⟨2 / 5, 1 / 2, 3 / 5⟩,
              ⟨7 / 10, 4 / 5, 9 / 10⟩], [], [], [], [], [], [], [], [], []⟩],
            none) [] := by
  norm_num [loadChannelData, loadChannelsPass, loadChannelStep, stepPosRot,
    stepNormal, stepAlpha, stepUV, stepTexture, stepScale,
    ChannelData.positions_enabled, ChannelData.rotations_enabled,
    ChannelData.normals_enabled, ChannelData.alpha_enabled,
    ChannelData.uv1_enabled, ChannelData.uv2_enabled,
    ChannelData.uv3_enabled, ChannelData.uv4_enabled,
    ChannelData.textureanim_enabled, ChannelData.scale_enabled,
    ChannelData.init, read_f32, pbind,
    show Int.land 2 6 = 2 from by decide,
    show Int.land 4 6 = 4 from by decide,
    show Int.land 8 6 = 0 from by decide,
    show Int.land 16 6 = 0 from by decide,
    show Int.land 32 6 = 0 from by decide,
    show Int.land 64 6 = 0 from by decide,
    show Int.land 128 6 = 0 from by decide,
    show Int.land 256 6 = 0 from by decide,
    show Int.land 512 6 = 0 from by decide,
    show Int.land 1024 6 = 0 from by decide]

/-- Witness for C6 at the concrete both-bits channel and stream. -/
theorem c6_mutual_exclusion_witness :
    ∃ hj2 : 0 < ([(⟨0, 6, [⟨1 / 10, 1 / 5, 3 / 10⟩, ⟨2 / 5, 1 / 2, 3 / 5⟩,
          ⟨7 / 10, 4 / 5, 9 / 10⟩], [], [], [], [], [], [], [], [],
          []⟩ : ChannelData)]).length,
      (([(⟨0, 6, [⟨1 / 10, 1 / 5, 3 / 10⟩, ⟨2 / 5, 1 / 2, 3 / 5⟩,
          ⟨7 / 10, 4 / 5, 9 / 10⟩], [], [], [], [], [], [], [], [],
          []⟩ : ChannelData)]).get ⟨0, hj2⟩).position.length = 3 ∧
        (([(⟨0, 6, [⟨1 / 10, 1 / 5, 3 / 10⟩, ⟨2 / 5, 1 / 2, 3 / 5⟩,
          ⟨7 / 10, 4 / 5, 9 / 10⟩], [], [], [], [], [], [], [], [],
          []⟩ : ChannelData)]).get ⟨0, hj2⟩).rotation = [] :=
  c6_mutual_exclusion [ChannelData.init 6 0] _ none _ [] 0 (by decide)
    (by decide) (by decide) ⟨by decide, by decide⟩ zmoBoth_eval

end Rose
